import Mathlib

/-!
Shallow embedding of `cleanup-maildir.py` (ehaupt/cleanup-maildir).

The Python script cleans a maildir folder: it optionally scans the folder to
build an undirected reference graph over message identifiers
(`MaildirCleaner.scanSubjects`), computes the identifiers reachable from the
flagged/unread seed messages, and then walks the folder again
(`MaildirCleaner.clean`) trashing, deleting or archiving each old message
that is not retained.

Modelling conventions:
* Strings are Lean `String`s; the Python code operates on (mostly ASCII)
  header values, and Python whitespace (the six characters matched by the
  `re` class backslash-s without the UNICODE flag) is modelled by `isPyWS`.
* A raised Python exception is an `Except.error` carrying a `PyErr`.
* A message is a record of the facts the script reads from a stored mail
  file: header values (as returned by `rfc822.Message.getheader`, i.e.
  `Option String`), the filename-derived flags, the file modification time
  and the already-converted `gmtime` date of `getDateSentOrRecd` (the
  epoch-seconds-to-calendar conversion `time.gmtime` is an external library
  collaborator, so the message carries its result directly).
* Message age is exact rational arithmetic `(now - mtime) / 86400`,
  mirroring the float expression in `MaildirMessage.getAge`.
* Filesystem effects (`MaildirWriter.deliver`, `os.unlink`, `mkMaildir`) are
  recorded as a list of `StorageOp` values instead of being performed.
-/

namespace CleanupMaildir

/-- The Python whitespace characters: the class matched by backslash-s in a
`re` pattern without the UNICODE flag, and the characters stripped by
`str.strip()`. -/
def isPyWS (c : Char) : Bool :=
  c = ' ' || c = '\t' || c = '\n' || c = '\r' || c = '\x0b' || c = '\x0c'

/-- Python `s.strip()` with no argument: drop leading whitespace. -/
def pyStripLeft (s : String) : String :=
  String.mk (s.data.dropWhile (fun c => isPyWS c))

/-- Python `s.strip()` with no argument: drop trailing whitespace. -/
def pyStripRight (s : String) : String :=
  String.mk ((s.data.reverse.dropWhile (fun c => isPyWS c)).reverse)

/-- Python `s.strip()`: drop leading and trailing whitespace. -/
def pyStrip (s : String) : String :=
  pyStripRight (pyStripLeft s)

/-- Python `s.lower()` (ASCII-relevant part). -/
def toLowerStr (s : String) : String :=
  String.mk (s.data.map Char.toLower)

/-- Replace every maximal run of whitespace characters by a single space.
Auxiliary step for `reSplitWS`. -/
def collapseWS : List Char → List Char
  | [] => []
  | c :: rest =>
      if isPyWS c then
        match collapseWS rest with
        | [] => [' ']
        | d :: ds => if d = ' ' then d :: ds else ' ' :: d :: ds
      else c :: collapseWS rest

/-- Split a character list at every space, keeping empty fields at the
boundaries (so a leading or trailing space yields an empty field). -/
def splitOnSpace : List Char → List (List Char)
  | [] => [[]]
  | c :: rest =>
      if c = ' ' then [] :: splitOnSpace rest
      else
        match splitOnSpace rest with
        | [] => [[c]]
        | t :: ts => (c :: t) :: ts

/-- Python `re.split` with a backslash-s-plus pattern: split on maximal runs
of whitespace; a leading or trailing run yields an empty token, and the
empty string yields the single empty token. -/
def reSplitWS (s : String) : List String :=
  (splitOnSpace (collapseWS s.data)).map (fun l => String.mk l)

/-- Python exception kinds raised by the modelled code. -/
inductive PyErr
  | indexError
  | valueError
deriving DecidableEq, Repr

deriving instance DecidableEq for Except

/-- The list comprehension in `MaildirMessage.getReferences`:
`[mid for mid in tokens if mid[0] == angle-open and mid[-1] == angle-close]`.
Indexing into an empty token raises an IndexError, aborting the whole
comprehension; that is modelled by the `Except.error` branch. -/
def filterRefs : List String → Except PyErr (List String)
  | [] => Except.ok []
  | t :: ts =>
      if t.length = 0 then Except.error PyErr.indexError
      else
        match filterRefs ts with
        | Except.error e => Except.error e
        | Except.ok rest =>
            if t.front = '<' && t.back = '>' then Except.ok (t :: rest)
            else Except.ok rest

/-- `MaildirMessage.getReferences` (src lines 238-242): `None` header gives
the empty list, otherwise the header value is split on whitespace runs and
tokens enclosed in angle brackets are kept. -/
def getReferences (referencesHeader : Option String) : Except PyErr (List String) :=
  match referencesHeader with
  | none => Except.ok []
  | some s => filterRefs (reSplitWS s)

/-- `MaildirMessage.getInReplyTo` (src lines 229-236): an absent header, or a
header whose stripped value is empty, counts as no parent. -/
def getInReplyTo (irtHeader : Option String) : Option String :=
  match irtHeader with
  | none => none
  | some s => if (pyStrip s).length = 0 then none else some s

/-- The regex replacement in `getSubjectHash`: strip one leading
`re:` / `fw:` / `fwd:` marker (the input is already lowercased) together with
the whitespace run that follows it. -/
def stripMarker (s : String) : String :=
  let l := s.data
  if l.take 3 = ['r', 'e', ':'] then String.mk ((l.drop 3).dropWhile isPyWS)
  else if l.take 4 = ['f', 'w', 'd', ':'] then String.mk ((l.drop 4).dropWhile isPyWS)
  else if l.take 3 = ['f', 'w', ':'] then String.mk ((l.drop 3).dropWhile isPyWS)
  else s

/-- `MaildirMessage.getSubjectHash` (src lines 215-224): `None` subject maps
to the fixed placeholder; otherwise lowercase, strip surrounding whitespace,
then remove a single leading reply/forward marker. -/
def getSubjectHash (subject : Option String) : String :=
  match subject with
  | none => "(no subject)"
  | some s => stripMarker (pyStrip (toLowerStr s))

/-- Two-digit zero padding, as produced by `time.strftime` with the month or
day format directives. -/
def pad2 (n : Nat) : String :=
  if n < 10 then "0" ++ toString n else toString n

/-- The archive destination name computed in `MaildirCleaner.clean`
(src lines 426-437): the year (unpadded), then for hierarchy depth greater
than 1 the zero-padded month, then for depth greater than 2 the zero-padded
day, each joined by the folder separator and prefixed by the archive base
name and the separator. -/
def archiveSubfolder (archiveFolder sep : String) (hierDepth : Nat)
    (ymd : Nat × Nat × Nat) : String :=
  let datePart := toString ymd.1
  let datePart := if hierDepth > 1 then datePart ++ sep ++ pad2 ymd.2.1 else datePart
  let datePart := if hierDepth > 2 then datePart ++ sep ++ pad2 ymd.2.2 else datePart
  archiveFolder ++ sep ++ datePart

/-- The undirected reference graph (the `pygraph.classes.graph.graph` value
named `references` in `scanSubjects`): a node list and an edge list.  An edge
`(a, b)` is undirected, so `has_edge` and `neighbors` look at both endpoint
orders. -/
structure SGraph where
  nodes : List String
  edges : List (String × String)
deriving DecidableEq, Repr

/-- `graph.has_node`. -/
def SGraph.has_node (g : SGraph) (n : String) : Bool :=
  decide (n ∈ g.nodes)

/-- `graph.add_node` (always guarded by `has_node` in the script). -/
def SGraph.add_node (g : SGraph) (n : String) : SGraph :=
  { g with nodes := g.nodes ++ [n] }

/-- `graph.has_edge` on an undirected graph: the edge is present in either
endpoint order. -/
def SGraph.has_edge (g : SGraph) (e : String × String) : Bool :=
  decide (e ∈ g.edges ∨ (e.2, e.1) ∈ g.edges)

/-- `graph.add_edge` (always guarded by `has_edge` in the script). -/
def SGraph.add_edge (g : SGraph) (e : String × String) : SGraph :=
  { g with edges := g.edges ++ [e] }

/-- The neighbors of a node: the opposite endpoint of every incident edge. -/
def SGraph.neighbors (g : SGraph) (n : String) : List String :=
  (g.edges.filterMap (fun e => if e.1 = n then some e.2 else none)) ++
    (g.edges.filterMap (fun e => if e.2 = n then some e.1 else none))

/-- Fuelled depth-first search with an explicit stack and visited list.  Each
step either pops an already-visited stack entry or visits a new node and
pushes its neighbors.  With enough fuel the visited list is exactly the set
of nodes reachable from the initial stack, which is the set of nodes yielded
by `pygraph.algorithms.traversal.traversal(g, root, pre-order)`. -/
def dfsVisit (g : SGraph) : Nat → List String → List String → List String
  | 0, _, visited => visited
  | _ + 1, [], visited => visited
  | fuel + 1, x :: stack, visited =>
      if x ∈ visited then dfsVisit g fuel stack visited
      else dfsVisit g fuel (g.neighbors x ++ stack) (visited ++ [x])

/-- Fuel bound for `dfsVisit`: every step pops one stack entry, and entries
are pushed only when a new node is visited (at most `nodes + 1` times, each
pushing at most `2 * edges` entries), so this bound is generous. -/
def dfsFuel (g : SGraph) : Nat :=
  (g.nodes.length + g.edges.length + 1) * (2 * g.edges.length + 2) + 1

/-- The set (as a list, in visit order) of nodes reachable from `root`:
the embedding of `traversal(references, root, pre-order)` as consumed by
`scanSubjects`, which only uses the yielded nodes as a set. -/
def traversalPre (g : SGraph) (root : String) : List String :=
  dfsVisit g (dfsFuel g) [root] []

/-- The configuration attributes of `MaildirCleaner` (src lines 289-302)
that the modelled code reads. -/
structure Config where
  keepFlaggedThreads : Bool
  keepUnreadThreads : Bool
  keepRead : Bool
  isTrialRun : Bool
  trashFolder : String
  archiveFolder : Option String
  archiveHierDepth : Nat
  folderSeperator : String
  folderPrefix : String
  folderBase : String
deriving DecidableEq, Repr

/-- The facts the script reads from one stored message.
`messageId`, `inReplyToRaw`, `referencesRaw` and `subject` are header values
as returned by `rfc822.Message.getheader` (absent header = `none`);
`isFlagged` and `isNew` are the filename-flag predicates of
`MaildirMessage`; `mtime` is the stat mtime used by `getDateRecd`;
`dateSentOrRecdYMD` is `time.gmtime(getDateSentOrRecd())`, carried directly
because the epoch-to-calendar conversion is an external library call. -/
structure Msg where
  messageId : Option String
  inReplyToRaw : Option String
  referencesRaw : Option String
  isFlagged : Bool
  isNew : Bool
  mtime : Int
  dateSentOrRecdYMD : Nat × Nat × Nat
  subject : Option String
deriving DecidableEq, Repr

/-- `MaildirMessage.getAge` (src lines 278-282): days since the file mtime,
computed at current time `now`.  The Python expression divides the float
second difference by 86400; `mkRat` is the same exact value. -/
def getAge (now : Int) (m : Msg) : ℚ :=
  mkRat (now - m.mtime) 86400

/-- The result of `scanSubjects`: the reference graph and the set (as a
deduplicated list) stored in `self.keepMsgIds`. -/
structure ScanState where
  graph : SGraph
  keepMsgIds : List String
deriving DecidableEq, Repr

/-- The guarded node insertion pattern of `scanSubjects`
(`if not has_node: add_node`). -/
def ensureNode (g : SGraph) (n : String) : SGraph :=
  if g.has_node n then g else g.add_node n

/-- The guarded edge insertion pattern of `scanSubjects`
(`if not has_edge: add_edge`). -/
def ensureEdge (g : SGraph) (e : String × String) : SGraph :=
  if g.has_edge e then g else g.add_edge e

/-- One reference-loop iteration in `scanSubjects` (src lines 352-356):
ensure the reference is a node and ensure the undirected edge from the
message id to it. -/
def addRef (mid : String) (g : SGraph) (ref : String) : SGraph :=
  ensureEdge (ensureNode g ref) (mid, ref)

/-- The seed collection at the end of one scan iteration (src lines
357-362): append the message id once per enabled policy the message
matches. -/
def wantedOf (cfg : Config) (m : Msg) (mid : String) (w : List String) : List String :=
  let w1 := if cfg.keepFlaggedThreads && m.isFlagged then w ++ [mid] else w
  if cfg.keepUnreadThreads && m.isNew then w1 ++ [mid] else w1

/-- One iteration of the scan loop in `scanSubjects` (src lines 334-362)
over the accumulated graph and wanted-id list.  A message without a message
id is skipped; otherwise the id node and its self-loop edge are ensured, and
only when `getInReplyTo` yields a parent are the parent edge and the
references edges added (the references loop is nested inside the in-reply-to
branch in the source).  `getReferences` can raise, which aborts the scan. -/
def scanStep (cfg : Config) (acc : SGraph × List String) (m : Msg) :
    Except PyErr (SGraph × List String) :=
  match m.messageId with
  | none => Except.ok acc
  | some mid =>
    match getInReplyTo m.inReplyToRaw with
    | none =>
        Except.ok (ensureEdge (ensureNode acc.1 mid) (mid, mid),
          wantedOf cfg m mid acc.2)
    | some irt =>
        match getReferences m.referencesRaw with
        | Except.error e => Except.error e
        | Except.ok refs =>
            Except.ok
              (refs.foldl (addRef mid)
                (ensureEdge
                  (ensureNode (ensureEdge (ensureNode acc.1 mid) (mid, mid)) irt)
                  (mid, irt)),
              wantedOf cfg m mid acc.2)

/-- The scan loop of `scanSubjects` over the whole folder, threading the
accumulator and propagating a raised exception. -/
def scanFold (cfg : Config) : List Msg → SGraph × List String →
    Except PyErr (SGraph × List String)
  | [], acc => Except.ok acc
  | m :: rest, acc =>
      match scanStep cfg acc m with
      | Except.error e => Except.error e
      | Except.ok acc2 => scanFold cfg rest acc2

/-- `MaildirCleaner.scanSubjects` (src lines 323-367): build the reference
graph and wanted list, then mark every identifier reachable from a wanted
identifier as kept (`self.keepMsgIds`, a dict used as a set, modelled as a
deduplicated list). -/
def scanSubjects (cfg : Config) (folder : List Msg) : Except PyErr ScanState :=
  match scanFold cfg folder (SGraph.mk [] [], []) with
  | Except.error e => Except.error e
  | Except.ok (g, wanted) =>
      Except.ok ⟨g, wanted.foldl
        (fun acc w => acc ++ (traversalPre g w).filter (fun t => decide (¬ t ∈ acc))) []⟩

/-- The disposition `clean` chooses for one message (the branch taken in src
lines 409-451): kept because its thread is retained, kept because it is
fresh (or read-kept), or acted on by the configured mode.  The archive
disposition carries the destination subfolder name computed in src lines
426-437. -/
inductive Disposition
  | keepThread
  | keepFresh
  | actTrash
  | actDelete
  | actArchive (subFolder : String)
deriving DecidableEq, Repr

/-- The decision state a disposition belongs to, ignoring the archive
destination payload. -/
inductive DispKind
  | keepThread
  | keepFresh
  | act
deriving DecidableEq, Repr

/-- Collapse a disposition to its decision state. -/
def Disposition.kind : Disposition → DispKind
  | Disposition.keepThread => DispKind.keepThread
  | Disposition.keepFresh => DispKind.keepFresh
  | Disposition.actTrash => DispKind.act
  | Disposition.actDelete => DispKind.act
  | Disposition.actArchive _ => DispKind.act

/-- The counters `MaildirCleaner.stats` (src line 291). -/
structure Stats where
  total : Nat
  trash : Nat
  delete : Nat
  archive : Nat
deriving DecidableEq, Repr

/-- `self.stats[mode] += 1` for a valid mode string. -/
def Stats.incMode (st : Stats) (mode : String) : Stats :=
  if mode = "trash" then { st with trash := st.trash + 1 }
  else if mode = "delete" then { st with delete := st.delete + 1 }
  else if mode = "archive" then { st with archive := st.archive + 1 }
  else st

/-- A filesystem mutation the script would perform: a maildir delivery of
message number `i` into a destination path, the unlink of message number
`i`, or the creation of a missing archive maildir (`mkMaildir`, guarded by
an existence check in the source, hence ensure-semantics). -/
inductive StorageOp
  | deliver (i : Nat) (path : String)
  | unlink (i : Nat)
  | ensureMaildir (path : String)
deriving DecidableEq, Repr

/-- `os.path.join` for the relative second components the script builds. -/
def pathJoin (a b : String) : String :=
  a ++ "/" ++ b

/-- The trash maildir path used by the `trashWriter` property (src lines
315-319). -/
def trashPath (cfg : Config) : String :=
  pathJoin cfg.folderBase (cfg.folderPrefix ++ cfg.trashFolder)

/-- The archive base folder chosen in `clean` (src lines 390-395): the
configured archive folder, defaulting to the folder being cleaned, or the
empty string for the inbox. -/
def archiveFolderFor (cfg : Config) (folderName : String) : String :=
  match cfg.archiveFolder with
  | none => if folderName = "INBOX" then "" else folderName
  | some f => f

/-- The disposition decision for one message (src lines 410-414 and the
mode branches): the thread-keep test reads `keepFlaggedThreads` and the
kept-id set (a missing message id is never in the set, matching Python
`None in dict`); otherwise the message is acted on exactly when it is old
enough and not excluded by the keep-read policy. -/
def disposition (cfg : Config) (scan : Option ScanState) (mode : String)
    (minAge : ℚ) (now : Int) (archFolder : String) (m : Msg) : Disposition :=
  if cfg.keepFlaggedThreads &&
      (match scan, m.messageId with
       | some st, some mid => decide (mid ∈ st.keepMsgIds)
       | _, _ => false) then
    Disposition.keepThread
  else if decide (getAge now m ≥ minAge) &&
      (!cfg.keepRead || (cfg.keepRead && m.isNew)) then
    if mode = "trash" then Disposition.actTrash
    else if mode = "delete" then Disposition.actDelete
    else
      Disposition.actArchive
        (archiveSubfolder archFolder cfg.folderSeperator cfg.archiveHierDepth
          m.dateSentOrRecdYMD)
  else Disposition.keepFresh

/-- The filesystem operations the script performs for one disposition of
message number `i`; in a trial run every act branch skips its operations
(src lines 418-420, 424-425, 442-448). -/
def opsFor (cfg : Config) (i : Nat) : Disposition → List StorageOp
  | Disposition.keepThread => []
  | Disposition.keepFresh => []
  | Disposition.actTrash =>
      if cfg.isTrialRun then []
      else [StorageOp.deliver i (trashPath cfg), StorageOp.unlink i]
  | Disposition.actDelete =>
      if cfg.isTrialRun then [] else [StorageOp.unlink i]
  | Disposition.actArchive sub =>
      if cfg.isTrialRun then []
      else
        [StorageOp.ensureMaildir (pathJoin cfg.folderBase (cfg.folderPrefix ++ sub)),
         StorageOp.deliver i (pathJoin cfg.folderBase (cfg.folderPrefix ++ sub)),
         StorageOp.unlink i]

/-- The disposal loop of `clean` (src lines 409-452): for each message,
choose a disposition, record its filesystem operations, bump the mode
counter when acting, and always bump the total counter. -/
def cleanLoop (cfg : Config) (scan : Option ScanState) (mode : String)
    (minAge : ℚ) (now : Int) (archFolder : String) (i : Nat) :
    List Msg → Stats → Stats × List StorageOp × List Disposition
  | [], st => (st, [], [])
  | m :: rest, st =>
      let d := disposition cfg scan mode minAge now archFolder m
      let st1 :=
        match d with
        | Disposition.keepThread => st
        | Disposition.keepFresh => st
        | _ => st.incMode mode
      let st2 := { st1 with total := st1.total + 1 }
      let r := cleanLoop cfg scan mode minAge now archFolder (i + 1) rest st2
      (r.1, opsFor cfg i d ++ r.2.1, d :: r.2.2)

/-- The full result of one `clean` call: the final counters, the filesystem
operations performed, the scan state (if a scan ran), and the disposition
log. -/
structure CleanResult where
  stats : Stats
  ops : List StorageOp
  scan : Option ScanState
  decisions : List Disposition
deriving DecidableEq, Repr

/-- `MaildirCleaner.clean` (src lines 370-452): reject an invalid mode with
a ValueError before doing anything, run the thread scan when either
thread-retention policy is enabled, then run the disposal loop. -/
def clean (cfg : Config) (mode folderName : String) (folder : List Msg)
    (minAge : ℚ) (now : Int) (st0 : Stats) : Except PyErr CleanResult :=
  if mode = "trash" ∨ mode = "archive" ∨ mode = "delete" then
    match
      (if cfg.keepFlaggedThreads || cfg.keepUnreadThreads then
        Except.map some (scanSubjects cfg folder)
      else Except.ok none) with
    | Except.error e => Except.error e
    | Except.ok scan =>
        let r := cleanLoop cfg scan mode minAge now (archiveFolderFor cfg folderName) 0
          folder st0
        Except.ok ⟨r.1, r.2.1, scan, r.2.2⟩
  else Except.error PyErr.valueError

/-- `GrowsTo g g2`: every node and edge of `g` is still present in `g2`.
The scan only ever appends to the graph, so it grows in this sense. -/
def GrowsTo (g g2 : SGraph) : Prop :=
  (∀ n, n ∈ g.nodes → n ∈ g2.nodes) ∧ (∀ e, e ∈ g.edges → e ∈ g2.edges)

/-! ## Concrete inputs used by witnesses and counterexamples -/

/-- A baseline configuration with every policy disabled and the script's
default folder settings. -/
def cfgBase : Config :=
  ⟨false, false, false, false, "Trash", none, 2, ".", ".", "Maildir"⟩

/-- All-zero counters. -/
def statsZero : Stats :=
  ⟨0, 0, 0, 0⟩

/-- The configuration for the C6 witness: no policy enabled, so the scan
collects no seeds but still builds the graph. -/
def cfgW6 : Config :=
  { cfgBase with keepFlaggedThreads := true }

/-- A message with only a message id for the C6 witness. -/
def msgW6 : Msg :=
  ⟨some ("<a>"), none, none, false, false, 0, (2004, 3, 15), none⟩

/-- The scan state produced by scanning `[msgW6]`. -/
def stW6 : ScanState :=
  ⟨⟨[("<a>")], [(("<a>"), ("<a>"))]⟩, []⟩

/-- A configuration archiving with hierarchy depth 2 and separator dot. -/
def cfgW7 : Config :=
  cfgBase

/-- A message whose effective sent-or-received date is 2004-03-15 and which
is old enough to be acted on at `now = 1728000`. -/
def msgW7 : Msg :=
  ⟨some ("<m7>"), none, none, false, false, 0, (2004, 3, 15), none⟩

/-- Configuration with only the keep-unread-threads policy enabled. -/
def cfgC1 : Config :=
  { cfgBase with keepUnreadThreads := true }

/-- An old unread message with a message id: a seed of the unread-thread
policy. -/
def msgC1 : Msg :=
  ⟨some ("<m1>"), none, none, false, true, 0, (2004, 3, 15), none⟩

/-- A message with a References header but no In-Reply-To header. -/
def msgC2 : Msg :=
  ⟨some ("<m>"), none, some ("<r>"), false, false, 0, (2004, 3, 15), none⟩

/-- An unread message with a message id that is younger than the age
threshold at `now = 0`. -/
def msgC5 : Msg :=
  ⟨some ("<m5>"), none, none, false, true, 0, (2004, 3, 15), none⟩

/-- Configuration with the flagged-thread policy enabled, for the C5
witness. -/
def cfgW5 : Config :=
  { cfgBase with keepFlaggedThreads := true }

/-- A flagged seed message younger than the threshold at `now = 0`. -/
def msgW5 : Msg :=
  ⟨some ("<s>"), none, none, true, false, 0, (2004, 3, 15), none⟩

/-- The scan state for the C5 witness: the seed's id is kept. -/
def scanW5 : ScanState :=
  ⟨⟨[("<s>")], [(("<s>"), ("<s>"))]⟩, [("<s>")]⟩

/-- A message old enough to be acted on, for the C4 witness. -/
def msgW4 : Msg :=
  ⟨some ("<m4>"), none, none, false, false, 0, (2004, 3, 15), none⟩

/-- The trial-run result of cleaning `[msgW4]` in delete mode. -/
def resW4 : CleanResult :=
  ⟨⟨1, 0, 1, 0⟩, [], none, [Disposition.actDelete]⟩

/-- An old, read message for the C9 witness. -/
def msgW9 : Msg :=
  ⟨some ("<m9>"), none, none, false, false, 0, (2004, 3, 15), none⟩

/-- The real-run result of cleaning `[msgW9]` in trash mode with both
thread policies disabled. -/
def resW9 : CleanResult :=
  ⟨⟨1, 1, 0, 0⟩,
    [StorageOp.deliver 0 ("Maildir/.Trash"), StorageOp.unlink 0], none,
    [Disposition.actTrash]⟩

/-- A flagged message with an id, same age and read state as `msgW9B`. -/
def msgW9A : Msg :=
  ⟨some ("<x>"), none, some ("<y>"), true, false, 0, (2004, 3, 15), none⟩

/-- A message without id or flags, same age and read state as `msgW9A`. -/
def msgW9B : Msg :=
  ⟨none, none, none, false, false, 0, (2000, 1, 1), none⟩

/-- A message with an id, a parent and one well-formed reference, for the
C2 witness. -/
def msgW2 : Msg :=
  ⟨some ("<m>"), some ("<p>"), some ("<r>"), false, false, 0, (2004, 3, 15), none⟩

/-- The scan state produced by scanning `[msgW2]` with the unread policy
enabled. -/
def stW2 : ScanState :=
  ⟨⟨[("<m>"), ("<p>"), ("<r>")],
    [(("<m>"), ("<m>")), (("<m>"), ("<p>")), (("<m>"), ("<r>"))]⟩, []⟩

/-! ## Helper lemmas -/

/-- The visited list of the depth-first search only grows: anything already
visited is in the final result. -/
theorem dfsVisit_mem_of_visited (g : SGraph) :
    ∀ (fuel : Nat) (stack visited : List String) (v : String),
      v ∈ visited → v ∈ dfsVisit g fuel stack visited := by
  intro fuel
  induction fuel with
  | zero => intro stack visited v hv; simpa [dfsVisit] using hv
  | succ n ih =>
      intro stack visited v hv
      cases stack with
      | nil => simpa [dfsVisit] using hv
      | cons x rest =>
          by_cases hx : x ∈ visited
          · simp only [dfsVisit, if_pos hx]
            exact ih rest visited v hv
          · simp only [dfsVisit, if_neg hx]
            exact ih (g.neighbors x ++ rest) (visited ++ [x]) v (by simp [hv])

/-- Graph growth is reflexive. -/
theorem GrowsTo.refl (g : SGraph) : GrowsTo g g :=
  ⟨fun _ h => h, fun _ h => h⟩

/-- Graph growth is transitive. -/
theorem GrowsTo.trans {a b c : SGraph} (h1 : GrowsTo a b) (h2 : GrowsTo b c) :
    GrowsTo a c :=
  ⟨fun n hn => h2.1 n (h1.1 n hn), fun e he => h2.2 e (h1.2 e he)⟩

/-- A present edge stays present along graph growth. -/
theorem has_edge_mono {g g2 : SGraph} (h : GrowsTo g g2) (e : String × String)
    (he : g.has_edge e = true) : g2.has_edge e = true := by
  simp only [SGraph.has_edge, decide_eq_true_eq] at he ⊢
  rcases he with h1 | h1
  · exact Or.inl (h.2 e h1)
  · exact Or.inr (h.2 _ h1)

/-- Guarded node insertion only grows the graph. -/
theorem growsTo_ensureNode (g : SGraph) (n : String) : GrowsTo g (ensureNode g n) := by
  unfold ensureNode
  by_cases h : g.has_node n = true
  · rw [if_pos h]; exact GrowsTo.refl g
  · rw [if_neg h]
    exact ⟨fun x hx => by simp [SGraph.add_node, hx], fun e he => he⟩

/-- Guarded edge insertion only grows the graph. -/
theorem growsTo_ensureEdge (g : SGraph) (e : String × String) :
    GrowsTo g (ensureEdge g e) := by
  unfold ensureEdge
  by_cases h : g.has_edge e = true
  · rw [if_pos h]; exact GrowsTo.refl g
  · rw [if_neg h]
    exact ⟨fun x hx => hx, fun e2 he2 => by simp [SGraph.add_edge, he2]⟩

/-- One reference insertion only grows the graph. -/
theorem growsTo_addRef (mid : String) (g : SGraph) (ref : String) :
    GrowsTo g (addRef mid g ref) :=
  GrowsTo.trans (growsTo_ensureNode g ref) (growsTo_ensureEdge (ensureNode g ref) (mid, ref))

/-- The whole reference loop only grows the graph. -/
theorem growsTo_foldl_addRef (mid : String) :
    ∀ (refs : List String) (g : SGraph), GrowsTo g (refs.foldl (addRef mid) g) := by
  intro refs
  induction refs with
  | nil => intro g; exact GrowsTo.refl g
  | cons r rest ih =>
      intro g
      exact GrowsTo.trans (growsTo_addRef mid g r) (ih (addRef mid g r))

/-- One reference insertion makes the reference a node and the undirected
edge from the message id to it present. -/
theorem addRef_mem (mid : String) (g : SGraph) (ref : String) :
    ref ∈ (addRef mid g ref).nodes ∧ (addRef mid g ref).has_edge (mid, ref) = true := by
  unfold addRef
  constructor
  · have h1 : ref ∈ (ensureNode g ref).nodes := by
      unfold ensureNode
      by_cases h : g.has_node ref = true
      · rw [if_pos h]
        exact of_decide_eq_true h
      · rw [if_neg h]
        simp [SGraph.add_node]
    have h2 : GrowsTo (ensureNode g ref) (ensureEdge (ensureNode g ref) (mid, ref)) :=
      growsTo_ensureEdge (ensureNode g ref) (mid, ref)
    exact h2.1 ref h1
  · unfold ensureEdge
    by_cases h : (ensureNode g ref).has_edge (mid, ref) = true
    · rw [if_pos h]; exact h
    · rw [if_neg h]
      simp [SGraph.has_edge, SGraph.add_edge]

/-- Every reference in the list ends up as a node with its edge after the
reference loop. -/
theorem foldl_addRef_establishes (mid : String) :
    ∀ (refs : List String) (g : SGraph) (ref : String), ref ∈ refs →
      ref ∈ (refs.foldl (addRef mid) g).nodes
      ∧ (refs.foldl (addRef mid) g).has_edge (mid, ref) = true := by
  intro refs
  induction refs with
  | nil => intro g ref h; cases h
  | cons r rest ih =>
      intro g ref h
      rcases List.mem_cons.mp h with h | hmem
      · subst h
        have h1 := addRef_mem mid g ref
        have h2 := growsTo_foldl_addRef mid rest (addRef mid g ref)
        exact ⟨h2.1 _ h1.1, has_edge_mono h2 _ h1.2⟩
      · exact ih (addRef mid g r) ref hmem

/-- A scan step taken on the cons of a message with a raising step yields
that error. -/
theorem scanFold_cons_err (cfg : Config) (m : Msg) (rest : List Msg)
    (acc : SGraph × List String) (e : PyErr)
    (h : scanStep cfg acc m = Except.error e) :
    scanFold cfg (m :: rest) acc = Except.error e := by
  show
    (match scanStep cfg acc m with
      | Except.error e => Except.error e
      | Except.ok acc2 => scanFold cfg rest acc2) = Except.error e
  rw [h]

/-- A scan step taken on the cons of a message with a succeeding step
continues the fold from the stepped accumulator. -/
theorem scanFold_cons_ok (cfg : Config) (m : Msg) (rest : List Msg)
    (acc acc2 : SGraph × List String) (h : scanStep cfg acc m = Except.ok acc2) :
    scanFold cfg (m :: rest) acc = scanFold cfg rest acc2 := by
  show
    (match scanStep cfg acc m with
      | Except.error e => Except.error e
      | Except.ok acc2 => scanFold cfg rest acc2) = scanFold cfg rest acc2
  rw [h]

/-- Inversion of a successful fold over a cons. -/
theorem scanFold_cons_inv (cfg : Config) (m : Msg) (rest : List Msg)
    (acc accf : SGraph × List String)
    (h : scanFold cfg (m :: rest) acc = Except.ok accf) :
    ∃ acc2, scanStep cfg acc m = Except.ok acc2
      ∧ scanFold cfg rest acc2 = Except.ok accf := by
  cases hstep : scanStep cfg acc m with
  | error e =>
      rw [scanFold_cons_err cfg m rest acc e hstep] at h
      exact absurd h (by simp)
  | ok acc2 =>
      rw [scanFold_cons_ok cfg m rest acc acc2 hstep] at h
      exact ⟨acc2, rfl, h⟩

/-- Inversion of a successful fold over an append. -/
theorem scanFold_append_inv (cfg : Config) :
    ∀ (l1 l2 : List Msg) (acc accf : SGraph × List String),
      scanFold cfg (l1 ++ l2) acc = Except.ok accf →
      ∃ acc1, scanFold cfg l1 acc = Except.ok acc1
        ∧ scanFold cfg l2 acc1 = Except.ok accf := by
  intro l1
  induction l1 with
  | nil => intro l2 acc accf h; exact ⟨acc, rfl, h⟩
  | cons m rest ih =>
      intro l2 acc accf h
      rw [List.cons_append] at h
      obtain ⟨acc2, hstep, hrest⟩ := scanFold_cons_inv cfg m (rest ++ l2) acc accf h
      obtain ⟨acc1, h1, h2⟩ := ih l2 acc2 accf hrest
      exact ⟨acc1, by rw [scanFold_cons_ok cfg m rest acc acc2 hstep]; exact h1, h2⟩

/-- A successful scan step only grows the graph. -/
theorem scanStep_grows (cfg : Config) (acc acc2 : SGraph × List String) (m : Msg)
    (h : scanStep cfg acc m = Except.ok acc2) : GrowsTo acc.1 acc2.1 := by
  unfold scanStep at h
  cases hmid : m.messageId with
  | none =>
      rw [hmid] at h
      cases h
      exact GrowsTo.refl _
  | some mid =>
      rw [hmid] at h
      cases hirt : getInReplyTo m.inReplyToRaw with
      | none =>
          rw [hirt] at h
          cases h
          exact GrowsTo.trans (growsTo_ensureNode acc.1 mid)
            (growsTo_ensureEdge (ensureNode acc.1 mid) (mid, mid))
      | some irt =>
          rw [hirt] at h
          cases hrefs : getReferences m.referencesRaw with
          | error e => rw [hrefs] at h; cases h
          | ok refs =>
              rw [hrefs] at h
              cases h
              refine GrowsTo.trans ?_ (growsTo_foldl_addRef mid refs _)
              refine GrowsTo.trans ?_ (growsTo_ensureEdge _ (mid, irt))
              refine GrowsTo.trans ?_ (growsTo_ensureNode _ irt)
              exact GrowsTo.trans (growsTo_ensureNode acc.1 mid)
                (growsTo_ensureEdge (ensureNode acc.1 mid) (mid, mid))

/-- A successful scan over any message list only grows the graph. -/
theorem scanFold_grows (cfg : Config) :
    ∀ (l : List Msg) (acc accf : SGraph × List String),
      scanFold cfg l acc = Except.ok accf → GrowsTo acc.1 accf.1 := by
  intro l
  induction l with
  | nil =>
      intro acc accf h
      cases h
      exact GrowsTo.refl _
  | cons m rest ih =>
      intro acc accf h
      obtain ⟨acc2, hstep, hrest⟩ := scanFold_cons_inv cfg m rest acc accf h
      exact GrowsTo.trans (scanStep_grows cfg acc acc2 m hstep) (ih acc2 accf hrest)

/-- A successful scan step on a message with an id, a parent, and readable
references makes every reference a node with its edge. -/
theorem scanStep_refs (cfg : Config) (acc acc2 : SGraph × List String) (m : Msg)
    (mid irt : String) (refs : List String)
    (hm : m.messageId = some mid) (hi : getInReplyTo m.inReplyToRaw = some irt)
    (hr : getReferences m.referencesRaw = Except.ok refs)
    (h : scanStep cfg acc m = Except.ok acc2) :
    ∀ ref ∈ refs, ref ∈ acc2.1.nodes ∧ acc2.1.has_edge (mid, ref) = true := by
  unfold scanStep at h
  rw [hm, hi, hr] at h
  cases h
  intro ref href
  exact foldl_addRef_establishes mid refs _ ref href

/-- The scan loop never reads the trial-run flag. -/
theorem scanFold_isTrialRun (cfg : Config) (b : Bool) :
    ∀ (l : List Msg) (acc : SGraph × List String),
      scanFold { cfg with isTrialRun := b } l acc = scanFold cfg l acc := by
  intro l
  induction l with
  | nil => intro acc; rfl
  | cons m rest ih =>
      intro acc
      have hstep : scanStep { cfg with isTrialRun := b } acc m = scanStep cfg acc m := rfl
      simp only [scanFold, hstep]
      cases scanStep cfg acc m with
      | error e => rfl
      | ok acc2 => exact ih acc2

/-- The thread scan never reads the trial-run flag. -/
theorem scanSubjects_isTrialRun (cfg : Config) (b : Bool) (folder : List Msg) :
    scanSubjects { cfg with isTrialRun := b } folder = scanSubjects cfg folder := by
  unfold scanSubjects
  rw [scanFold_isTrialRun]

/-- The disposition decision never reads the trial-run flag. -/
theorem disposition_isTrialRun (cfg : Config) (b : Bool) (scan : Option ScanState)
    (mode : String) (minAge : ℚ) (now : Int) (af : String) (m : Msg) :
    disposition { cfg with isTrialRun := b } scan mode minAge now af m
      = disposition cfg scan mode minAge now af m := rfl

/-- The archive base folder choice never reads the trial-run flag. -/
theorem archiveFolderFor_isTrialRun (cfg : Config) (b : Bool) (fn : String) :
    archiveFolderFor { cfg with isTrialRun := b } fn = archiveFolderFor cfg fn := rfl

/-- In a trial run, every disposition emits no storage operation. -/
theorem opsFor_trial (cfg : Config) (i : Nat) (d : Disposition) :
    opsFor { cfg with isTrialRun := true } i d = [] := by
  cases d <;> simp [opsFor]

/-- The disposal loop computes the same counters and decision log with the
trial-run flag on or off, and emits no operation when it is on. -/
theorem cleanLoop_trial (cfg : Config) (scan : Option ScanState) (mode : String)
    (minAge : ℚ) (now : Int) (af : String) :
    ∀ (msgs : List Msg) (i : Nat) (st : Stats),
      (cleanLoop { cfg with isTrialRun := true } scan mode minAge now af i msgs st).1
        = (cleanLoop { cfg with isTrialRun := false } scan mode minAge now af i msgs st).1
      ∧ (cleanLoop { cfg with isTrialRun := true } scan mode minAge now af i msgs st).2.1
        = []
      ∧ (cleanLoop { cfg with isTrialRun := true } scan mode minAge now af i msgs st).2.2
        = (cleanLoop { cfg with isTrialRun := false } scan mode minAge now af i msgs st).2.2 := by
  intro msgs
  induction msgs with
  | nil => intro i st; exact ⟨rfl, rfl, rfl⟩
  | cons m rest ih =>
      intro i st
      have h := ih (i + 1)
      simp only [cleanLoop, disposition_isTrialRun, opsFor_trial]
      exact ⟨(h _).1, by simp [(h _).2.1], by rw [(h _).2.2]⟩

/-- The disposal loop logs exactly one disposition per message, in order. -/
theorem cleanLoop_decisions (cfg : Config) (scan : Option ScanState)
    (mode : String) (minAge : ℚ) (now : Int) (af : String) :
    ∀ (msgs : List Msg) (i : Nat) (st : Stats),
      (cleanLoop cfg scan mode minAge now af i msgs st).2.2
        = msgs.map (disposition cfg scan mode minAge now af) := by
  intro msgs
  induction msgs with
  | nil => intro i st; rfl
  | cons m rest ih =>
      intro i st
      simp only [cleanLoop, List.map]
      rw [ih]

/-! ## Claim C1 -/

/-- C1 (failing evaluation): with only `keepUnreadThreads` enabled, the scan
records the unread message's identifier in the kept set, yet the disposal
pass trashes the message (its trash counter is bumped and two storage
operations run), because the keep check at src line 410 tests only
`keepFlaggedThreads`. -/
theorem unread_thread_seed_trashed :
    Except.map (fun r => (r.stats.trash, r.decisions, r.ops.length))
        (clean cfgC1 ("trash") ("L") [msgC1] 14 1728000 statsZero)
      = Except.ok (1, [Disposition.actTrash], 2) ∧
    Except.map
        (fun r =>
          match r.scan with
          | some st => decide (("<m1>") ∈ st.keepMsgIds)
          | none => false)
        (clean cfgC1 ("trash") ("L") [msgC1] 14 1728000 statsZero)
      = Except.ok true ∧
    getAge 1728000 msgC1 ≥ 14 := by
  decide

/-! ## Claim C2 -/

/-- C2 counterexample: for a scanned message whose In-Reply-To is absent,
the well-formed identifier in its References header gets neither a node nor
an edge — the references step is nested inside the in-reply-to branch. -/
theorem references_skipped_without_parent :
    Except.map (fun st => st.graph.has_node ("<r>")) (scanSubjects cfgC1 [msgC2])
      = Except.ok false ∧
    Except.map (fun st => st.graph.has_edge (("<m>"), ("<r>")))
        (scanSubjects cfgC1 [msgC2])
      = Except.ok false ∧
    getReferences msgC2.referencesRaw = Except.ok [("<r>")] := by
  decide

/-- C2 (amended): for every scanned message that has an identifier AND a
present In-Reply-To value, the Retention Scanner inserts a graph node for
each well-formed identifier in the message's References header and an
undirected edge between the message's identifier and that reference
identifier; when In-Reply-To is absent the references step is skipped
entirely, since it is nested inside the in-reply-to branch. -/
theorem scan_adds_reference_edges (cfg : Config) (pre post : List Msg) (m : Msg)
    (mid irt : String) (refs : List String) (st : ScanState)
    (hm : m.messageId = some mid) (hi : getInReplyTo m.inReplyToRaw = some irt)
    (hr : getReferences m.referencesRaw = Except.ok refs)
    (hs : scanSubjects cfg (pre ++ m :: post) = Except.ok st) :
    ∀ ref ∈ refs, ref ∈ st.graph.nodes ∧ st.graph.has_edge (mid, ref) = true := by
  intro ref href
  unfold scanSubjects at hs
  cases hfull : scanFold cfg (pre ++ m :: post) (SGraph.mk [] [], []) with
  | error e =>
      rw [hfull] at hs
      exact absurd hs (by simp)
  | ok accf =>
      obtain ⟨g, wanted⟩ := accf
      rw [hfull] at hs
      cases hs
      obtain ⟨acc1, h1, h2⟩ :=
        scanFold_append_inv cfg pre (m :: post) (SGraph.mk [] [], []) (g, wanted) hfull
      obtain ⟨acc2, hstep, hpost⟩ := scanFold_cons_inv cfg m post acc1 (g, wanted) h2
      have hprops := scanStep_refs cfg acc1 acc2 m mid irt refs hm hi hr hstep ref href
      have hgrow : GrowsTo acc2.1 g := scanFold_grows cfg post acc2 (g, wanted) hpost
      exact ⟨hgrow.1 ref hprops.1, has_edge_mono hgrow _ hprops.2⟩

/-- Witness for the amended C2 at a concrete one-message folder. -/
theorem scan_adds_reference_edges_witness :
    scanSubjects cfgC1 ([] ++ msgW2 :: []) = Except.ok stW2 ∧
    ("<r>") ∈ stW2.graph.nodes ∧
    stW2.graph.has_edge (("<m>"), ("<r>")) = true :=
  ⟨by decide,
    (scan_adds_reference_edges cfgC1 [] [] msgW2 ("<m>") ("<p>") [("<r>")] stW2
        (by decide) (by decide) (by decide) (by decide) ("<r>") (by decide)).1,
    (scan_adds_reference_edges cfgC1 [] [] msgW2 ("<m>") ("<p>") [("<r>")] stW2
        (by decide) (by decide) (by decide) (by decide) ("<r>") (by decide)).2⟩

/-! ## Claim C3 -/

/-- C3: reference extraction does NOT terminate without error on every
header value: a present-but-empty or whitespace-only References value makes
the element indexing in the list comprehension raise an IndexError (the
whitespace split yields an empty token), while an absent header yields the
empty sequence and a value with only nonempty tokens keeps exactly the
angle-bracketed ones. -/
theorem references_empty_header_raises :
    getReferences (some ("")) = Except.error PyErr.indexError ∧
    getReferences (some ("   ")) = Except.error PyErr.indexError ∧
    getReferences none = Except.ok [] ∧
    getReferences (some ("<a> x <b>")) = Except.ok [("<a>"), ("<b>")] ∧
    getReferences (some ("<a> <b")) = Except.ok [("<a>")] := by
  decide

/-! ## Claim C4 -/

/-- C4: running `clean` with trial-run enabled produces exactly the same
per-category counter values as running it with trial-run disabled on the
same folder state, while performing zero move and zero delete operations on
the storage. -/
theorem trial_run_equivalence (cfg : Config) (mode folderName : String)
    (folder : List Msg) (minAge : ℚ) (now : Int) (st0 : Stats) :
    Except.map CleanResult.stats
        (clean { cfg with isTrialRun := true } mode folderName folder minAge now st0)
      = Except.map CleanResult.stats
        (clean { cfg with isTrialRun := false } mode folderName folder minAge now st0)
    ∧ ∀ r,
        clean { cfg with isTrialRun := true } mode folderName folder minAge now st0
          = Except.ok r → r.ops = [] := by
  by_cases hmode : mode = "trash" ∨ mode = "archive" ∨ mode = "delete"
  · simp only [clean, if_pos hmode, scanSubjects_isTrialRun, archiveFolderFor_isTrialRun]
    cases hscan :
        (if cfg.keepFlaggedThreads || cfg.keepUnreadThreads then
          Except.map some (scanSubjects cfg folder)
        else Except.ok none) with
    | error e => simp
    | ok scan =>
        have hloop := cleanLoop_trial cfg scan mode minAge now
          (archiveFolderFor cfg folderName) folder 0 st0
        constructor
        · simp [Except.map, hloop.1]
        · intro r h
          simp only [] at h
          cases h
          exact hloop.2.1
  · simp [clean, if_neg hmode]

/-- Witness for C4 at a concrete folder: the trial run returns `resW4`,
which records no storage operation, and its counters agree with the real
run. -/
theorem trial_run_equivalence_witness :
    clean { cfgBase with isTrialRun := true } ("delete") ("F") [msgW4] 14 1728000 statsZero
      = Except.ok resW4 ∧
    resW4.ops = [] ∧
    Except.map CleanResult.stats
        (clean { cfgBase with isTrialRun := true } ("delete") ("F") [msgW4] 14 1728000
          statsZero)
      = Except.map CleanResult.stats
        (clean { cfgBase with isTrialRun := false } ("delete") ("F") [msgW4] 14 1728000
          statsZero) :=
  ⟨by decide,
    (trial_run_equivalence cfgBase ("delete") ("F") [msgW4] 14 1728000 statsZero).2
      resW4 (by decide),
    (trial_run_equivalence cfgBase ("delete") ("F") [msgW4] 14 1728000 statsZero).1⟩

/-! ## Claim C5 -/

/-- C5 counterexample: with only `keepUnreadThreads` enabled, a message that
is both a seed (its id is in the kept set) and younger than the threshold is
kept through the fresh/recent branch, not the seed-kept branch. -/
theorem seed_recent_kept_as_fresh :
    Except.map (fun r => r.decisions) (clean cfgC1 ("trash") ("L") [msgC5] 14 0 statsZero)
      = Except.ok [Disposition.keepFresh] ∧
    Except.map
        (fun r =>
          match r.scan with
          | some st => decide (("<m5>") ∈ st.keepMsgIds)
          | none => false)
        (clean cfgC1 ("trash") ("L") [msgC5] 14 0 statsZero)
      = Except.ok true ∧
    getAge 0 msgC5 < 14 := by
  decide

/-- C5 (amended): when `keepFlaggedThreads` is enabled, the thread-keep
state is checked before the age test, so any message whose identifier is in
the kept set — in particular a seed younger than the minimum age — is kept
through the thread path: its disposition is `keepThread`, no storage
operation is emitted, and only the total counter is incremented. -/
theorem thread_keep_priority (cfg : Config) (scanSt : ScanState)
    (mode : String) (minAge : ℚ) (now : Int) (archFolder : String) (i : Nat)
    (m : Msg) (mid : String) (st : Stats)
    (hk : cfg.keepFlaggedThreads = true) (hm : m.messageId = some mid)
    (hmem : mid ∈ scanSt.keepMsgIds) :
    disposition cfg (some scanSt) mode minAge now archFolder m
      = Disposition.keepThread ∧
    cleanLoop cfg (some scanSt) mode minAge now archFolder i [m] st
      = ({ st with total := st.total + 1 }, [], [Disposition.keepThread]) := by
  have hd : disposition cfg (some scanSt) mode minAge now archFolder m
      = Disposition.keepThread := by
    unfold disposition
    rw [hk, hm]
    simp [hmem]
  refine ⟨hd, ?_⟩
  simp [cleanLoop, hd, opsFor]

/-- Witness for the amended C5 at a concrete recent seed message. -/
theorem thread_keep_priority_witness :
    cfgW5.keepFlaggedThreads = true ∧
    msgW5.messageId = some ("<s>") ∧
    ("<s>") ∈ scanW5.keepMsgIds ∧
    getAge 0 msgW5 < 14 ∧
    disposition cfgW5 (some scanW5) ("trash") 14 0 ("A") msgW5
      = Disposition.keepThread ∧
    cleanLoop cfgW5 (some scanW5) ("trash") 14 0 ("A") 0 [msgW5] statsZero
      = ({ statsZero with total := statsZero.total + 1 }, [],
          [Disposition.keepThread]) :=
  ⟨by decide, by decide, by decide, by decide,
    (thread_keep_priority cfgW5 scanW5 ("trash") 14 0 ("A") 0 msgW5 ("<s>")
        statsZero (by decide) (by decide) (by decide)).1,
    (thread_keep_priority cfgW5 scanW5 ("trash") 14 0 ("A") 0 msgW5 ("<s>")
        statsZero (by decide) (by decide) (by decide)).2⟩

/-! ## Claim C6 -/

/-- C6: for every graph built by the Retention Scanner and every identifier
`x` in its node set, the connectivity query (`traversal` from `x`) returns a
set that contains `x` itself, even when `x` has no edges to any other
node. -/
theorem component_contains_self (cfg : Config) (folder : List Msg)
    (st : ScanState) (x : String) (_hs : scanSubjects cfg folder = Except.ok st)
    (_hx : st.graph.has_node x = true) : x ∈ traversalPre st.graph x := by
  unfold traversalPre dfsFuel
  simp only [dfsVisit, List.not_mem_nil, if_false]
  exact dfsVisit_mem_of_visited st.graph _ _ ([] ++ [x]) x (by simp)

/-- Witness for C6 at a concrete one-message folder. -/
theorem component_contains_self_witness :
    scanSubjects cfgW6 [msgW6] = Except.ok stW6 ∧
    stW6.graph.has_node ("<a>") = true ∧
    ("<a>") ∈ traversalPre stW6.graph ("<a>") :=
  ⟨by decide, by decide,
    component_contains_self cfgW6 [msgW6] stW6 ("<a>") (by decide) (by decide)⟩

/-! ## Claim C7 -/

/-- C7: the archive destination name is the archive base name followed by
the date components joined by the separator, with depth 1 giving the year,
depth 2 year and month, depth 3 year, month and day; and the disposal pass
uses exactly this name for an archived message. -/
theorem archive_destination_name :
    archiveSubfolder ("Archive") (".") 1 (2004, 3, 15) = "Archive.2004" ∧
    archiveSubfolder ("Archive") (".") 2 (2004, 3, 15) = "Archive.2004.03" ∧
    archiveSubfolder ("Archive") (".") 3 (2004, 3, 15) = "Archive.2004.03.15" ∧
    disposition cfgW7 none ("archive") 14 1728000 ("Archive") msgW7
      = Disposition.actArchive ("Archive.2004.03") := by
  decide

/-! ## Claim C8 -/

/-- C8: subject normalization lowercases, trims surrounding whitespace and
strips exactly one leading reply/forward marker; a doubled marker keeps its
second occurrence, and an absent subject gives the fixed placeholder. -/
theorem subject_normalization :
    getSubjectHash (some ("Re: Re: hello")) = "re: hello" ∧
    getSubjectHash none = "(no subject)" ∧
    getSubjectHash (some ("  Hello World  ")) = "hello world" ∧
    getSubjectHash (some ("FWD:   Fwd: x")) = "fwd: x" ∧
    getSubjectHash (some ("Fw:reply")) = "reply" ∧
    getSubjectHash (some ("ref: counts")) = "ref: counts" := by
  decide

/-! ## Claim C9 -/

/-- C9: when both thread-retention policies are disabled, `clean` builds no
scan state at all, every message's disposition is decided with an absent
scan state, and the decision state depends only on the message's age and
its read/unread flag. -/
theorem no_scan_without_thread_policies (cfg : Config) (mode folderName : String)
    (folder : List Msg) (minAge : ℚ) (now : Int) (st0 : Stats)
    (hf : cfg.keepFlaggedThreads = false) (hu : cfg.keepUnreadThreads = false) :
    (∀ r, clean cfg mode folderName folder minAge now st0 = Except.ok r →
        r.scan = none
        ∧ r.decisions
          = folder.map
              (disposition cfg none mode minAge now (archiveFolderFor cfg folderName)))
    ∧ ∀ (m m2 : Msg), getAge now m = getAge now m2 → m.isNew = m2.isNew →
        (disposition cfg none mode minAge now (archiveFolderFor cfg folderName) m).kind
          = (disposition cfg none mode minAge now (archiveFolderFor cfg folderName)
              m2).kind := by
  constructor
  · intro r h
    by_cases hmode : mode = "trash" ∨ mode = "archive" ∨ mode = "delete"
    · simp only [clean, if_pos hmode, hf, hu, Bool.or_self, Bool.false_eq_true,
        if_false] at h
      cases h
      exact ⟨rfl, cleanLoop_decisions cfg none mode minAge now
        (archiveFolderFor cfg folderName) folder 0 st0⟩
    · simp [clean, if_neg hmode] at h
  · intro m m2 hage hnew
    unfold disposition
    rw [hf, hage, hnew]
    simp only [Bool.false_and, Bool.false_eq_true, if_false]
    rcases Bool.eq_false_or_eq_true
        (decide (getAge now m2 ≥ minAge) && (!cfg.keepRead || (cfg.keepRead && m2.isNew)))
      with hc | hc
    · by_cases h1 : mode = "trash"
      · simp [hc, h1]
      · by_cases h2 : mode = "delete"
        · simp [hc, h1, h2]
        · simp [hc, h1, h2, Disposition.kind]
    · simp [hc]

/-- Witness for C9 at a concrete folder and message pair. -/
theorem no_scan_without_thread_policies_witness :
    clean cfgBase ("trash") ("F") [msgW9] 14 1728000 statsZero = Except.ok resW9 ∧
    resW9.scan = none ∧
    resW9.decisions
      = [msgW9].map
          (disposition cfgBase none ("trash") 14 1728000
            (archiveFolderFor cfgBase ("F"))) ∧
    (disposition cfgBase none ("trash") 14 1728000 (archiveFolderFor cfgBase ("F"))
        msgW9A).kind
      = (disposition cfgBase none ("trash") 14 1728000 (archiveFolderFor cfgBase ("F"))
          msgW9B).kind :=
  ⟨by decide,
    ((no_scan_without_thread_policies cfgBase ("trash") ("F") [msgW9] 14 1728000
        statsZero (by decide) (by decide)).1 resW9 (by decide)).1,
    ((no_scan_without_thread_policies cfgBase ("trash") ("F") [msgW9] 14 1728000
        statsZero (by decide) (by decide)).1 resW9 (by decide)).2,
    (no_scan_without_thread_policies cfgBase ("trash") ("F") [msgW9] 14 1728000
        statsZero (by decide) (by decide)).2 msgW9A msgW9B (by decide) (by decide)⟩

/-! ## Claim C10 -/

/-- C10: for every mode outside trash/archive/delete, `clean` returns the
ValueError raised before any scan, counter update or storage operation (the
error path produces no result state at all). -/
theorem invalid_mode_valueerror (cfg : Config) (mode folderName : String)
    (folder : List Msg) (minAge : ℚ) (now : Int) (st0 : Stats)
    (h1 : mode ≠ "trash") (h2 : mode ≠ "archive") (h3 : mode ≠ "delete") :
    clean cfg mode folderName folder minAge now st0 = Except.error PyErr.valueError := by
  unfold clean
  rw [if_neg]
  intro h
  rcases h with h | h | h
  exacts [h1 h, h2 h, h3 h]

/-- Witness for C10 at the concrete invalid mode string. -/
theorem invalid_mode_valueerror_witness :
    clean cfgBase ("compact") ("Folder") [] 14 0 statsZero
      = Except.error PyErr.valueError :=
  invalid_mode_valueerror cfgBase ("compact") ("Folder") [] 14 0 statsZero
    (by decide) (by decide) (by decide)

end CleanupMaildir
